import Mathlib

/-!
Verification development for the TCP line-search service.

The Python sources are shallowly embedded as Lean definitions:
strings are lists of characters (or lists of Unicode code points where
byte-level UTF-8 behaviour matters), Python dictionaries are association
lists with overwrite-on-insert, fallible code returns `Except String`,
and `while` loops with non-structural termination take an explicit fuel
argument whose sufficiency is noted where it is used.
-/

namespace Parser

/-- Python `str.split()` whitespace test, for the ASCII whitespace
characters Python recognises (space, tab, newline, carriage return,
vertical tab, form feed). -/
def isPySpace (c : Char) : Bool :=
  c = ' ' || c = '\t' || c = '\n' || c = '\r' || c = '\x0b' || c = '\x0c'

/-- Helper for `pySplit`: the accumulator holds the current word,
reversed. -/
def pySplitAux : List Char → List Char → List (List Char)
  | [], acc => if acc.isEmpty then [] else [acc.reverse]
  | c :: cs, acc =>
    if isPySpace c then
      if acc.isEmpty then pySplitAux cs []
      else acc.reverse :: pySplitAux cs []
    else pySplitAux cs (c :: acc)

/-- Embedding of Python `text.split()` (no separator argument): split on
runs of whitespace, discarding empty words. -/
def pySplit (text : List Char) : List (List Char) :=
  pySplitAux text []

/-- Embedding of Python `query in text` for strings (`services.py`,
`linear_search` body): scan `text`, returning true when `query` occurs
as a contiguous substring. -/
def strContains (text query : List Char) : Bool :=
  query.isPrefixOf text ||
    match text with
    | [] => false
    | _ :: rest => strContains rest query

/-- Embedding of `SearchService.linear_search` (`services.py` line 17):
`return query in text`, i.e. substring containment. -/
def linear_search (text query : List Char) : Bool :=
  strContains text query

/-- Embedding of `SearchService.hash_set_search` (`services.py` line 21):
`query in set(text.split())`.  Membership in the set built from the word
list coincides with membership in the word list itself. -/
def hash_set_search (text query : List Char) : Bool :=
  decide (query ∈ pySplit text)

/-- Python value stored in a trie dictionary (`services.py`
`build_trie`): either the end-of-word marker `True` or a nested
dictionary, modelled as an association list. -/
inductive PyVal where
  | pyTrue : PyVal
  | dict : List (Char × PyVal) → PyVal
deriving Repr

/-- One Python dictionary level of the trie. -/
abbrev TrieNode := List (Char × PyVal)

/-- Python dictionary lookup `current[char]` / `char in current` on a
trie node. -/
def alLookup (t : TrieNode) (c : Char) : Option PyVal :=
  match t with
  | [] => none
  | (k, v) :: rest => if k = c then some v else alLookup rest c

/-- Python dictionary assignment `current[char] = v`: overwrite the
existing binding in place, otherwise append (insertion order is kept,
as for Python dictionaries). -/
def alInsert (t : TrieNode) (c : Char) (v : PyVal) : TrieNode :=
  match t with
  | [] => [(c, v)]
  | (k, w) :: rest => if k = c then (k, v) :: rest else (k, w) :: alInsert rest c v

/-- Embedding of the per-word loop of `SearchService.build_trie`
(`services.py` lines 45-51).  Walking onto the boolean marker `True`
with characters still to insert (or with the final marker assignment
pending) is a Python `TypeError`, modelled as `Except.error`; the
exception propagates out of `build_trie`, so the partially mutated
dictionary is never observed. -/
def insertWord (t : TrieNode) : List Char → Except String TrieNode
  | [] => .ok (alInsert t '#' .pyTrue)
  | c :: cs =>
    match alLookup t c with
    | none =>
      match insertWord [] cs with
      | .error e => .error e
      | .ok sub => .ok (alInsert t c (.dict sub))
    | some (.dict d) =>
      match insertWord d cs with
      | .error e => .error e
      | .ok d' => .ok (alInsert t c (.dict d'))
    | some .pyTrue => .error "TypeError: argument of type bool is not iterable"

/-- Fold of `insertWord` over the word list, starting from a given
root. -/
def buildTrieAux (t : TrieNode) : List (List Char) → Except String TrieNode
  | [] => .ok t
  | w :: ws =>
    match insertWord t w with
    | .error e => .error e
    | .ok t' => buildTrieAux t' ws

/-- Embedding of `SearchService.build_trie` (`services.py` line 42):
start from the empty dictionary and insert every word, marking ends of
words with the key `'#'`. -/
def build_trie (words : List (List Char)) : Except String TrieNode :=
  buildTrieAux [] words

/-- Embedding of `SearchService.search_trie` (`services.py` line 54):
walk the query characters; a missing transition returns `False`, and
the final answer is `'#' in current` (key membership, whatever the
value).  Walking onto the boolean marker raises a `TypeError` in
Python, modelled as `Except.error`. -/
def search_trie (t : TrieNode) : List Char → Except String Bool
  | [] => .ok (alLookup t '#').isSome
  | c :: cs =>
    match alLookup t c with
    | none => .ok false
    | some .pyTrue => .error "TypeError: argument of type bool is not iterable"
    | some (.dict d) => search_trie d cs

/-- Embedding of `SearchService.trie_search` (`services.py` line 63):
build the trie from the whitespace-split words and search it. -/
def trie_search (text query : List Char) : Except String Bool :=
  match build_trie (pySplit text) with
  | .error e => .error e
  | .ok t => search_trie t query

/-- Python `<` on strings: lexicographic comparison by code point. -/
def pyLtStr : List Char → List Char → Bool
  | [], [] => false
  | [], _ :: _ => true
  | _ :: _, [] => false
  | a :: as, b :: bs =>
    if a.toNat < b.toNat then true
    else if b.toNat < a.toNat then false
    else pyLtStr as bs

/-- Insertion step for `pySorted`: place `w` before the first strictly
greater element.  Elements comparing equal are identical lists, so the
result coincides with Python's stable `sorted`. -/
def pyInsertSorted (w : List Char) : List (List Char) → List (List Char)
  | [] => [w]
  | x :: xs => if pyLtStr w x then w :: x :: xs else x :: pyInsertSorted w xs

/-- Embedding of Python `sorted(words)`: ascending lexicographic order,
duplicates kept. -/
def pySorted (ws : List (List Char)) : List (List Char) :=
  ws.foldr pyInsertSorted []

/-- Indexing `sorted_words[mid]` with an in-range index (the loop keeps
`0 ≤ left ≤ mid ≤ right < len`); out-of-range reads, which the source
never performs, default to the empty word. -/
def wordAt (ws : List (List Char)) (i : Int) : List Char :=
  ws.getD i.toNat []

/-- Loop of `SearchService.binary_search` (`services.py` lines 32-40),
with fuel: each iteration halves the interval, so `ws.length + 2` fuel
is more than enough for every reachable call. -/
def bsLoop (ws : List (List Char)) (query : List Char) : Nat → Int → Int → Bool
  | 0, _, _ => false
  | fuel + 1, left, right =>
    if left ≤ right then
      let mid := left + (right - left) / 2
      let w := wordAt ws mid
      if w = query then true
      else if pyLtStr w query then bsLoop ws query fuel (mid + 1) right
      else bsLoop ws query fuel left (mid - 1)
    else false

/-- Embedding of `SearchService.binary_search` (`services.py` line 27):
binary search over the sorted whitespace-split words. -/
def binary_search (text query : List Char) : Bool :=
  let sorted_words := pySorted (pySplit text)
  bsLoop sorted_words query (sorted_words.length + 2) 0 ((sorted_words.length : Int) - 1)

/-- Embedding of `SearchService.build_bad_char_table` (`services.py`
line 69), as the denotation of the resulting dictionary: the
initialisation gives every character of the pattern the value `m`, then
the loop over `i in range(m-1)` overwrites, so the final value at `c`
is `m - 1 - i` for the last `i < m - 1` with `pattern[i] = c`, and `m`
otherwise (also the `.get` default for absent characters). -/
def build_bad_char_table (pattern : List Char) (c : Char) : Nat :=
  let m := pattern.length
  match (List.range (m - 1)).foldl
      (fun acc i => if pattern.getD i ' ' = c then some i else acc) none with
  | some i => m - 1 - i
  | none => m

/-- Indexing `text[k]` for the Boyer-Moore loops; the source only reads
in-range indices, and the guard `0 ≤ j` is checked before reading. -/
def charAt (s : List Char) (i : Int) : Char :=
  s.getD i.toNat ' '

/-- Inner loop of `SearchService.boyer_moore_search` (`services.py`
lines 100-102): compare right to left while characters match, returning
the final `j`.  Fuel `pattern.length + 1` bounds the at most
`pattern.length` decrements. -/
def bmInner (text pattern : List Char) : Nat → Int → Int → Int
  | 0, j, _ => j
  | fuel + 1, j, k =>
    if 0 ≤ j ∧ charAt text k = charAt pattern j then
      bmInner text pattern fuel (j - 1) (k - 1)
    else j

/-- Outer loop of `SearchService.boyer_moore_search` (`services.py`
lines 95-109): `i` advances by the bad-character shift, which is always
at least 1, so `text.length + 1` fuel covers every reachable call. -/
def bmOuter (text pattern : List Char) : Nat → Int → Bool
  | 0, _ => false
  | fuel + 1, i =>
    if i < (text.length : Int) then
      let j := bmInner text pattern (pattern.length + 1) ((pattern.length : Int) - 1) i
      if j = -1 then true
      else bmOuter text pattern fuel (i + (build_bad_char_table pattern (charAt text i) : Int))
    else false

/-- Embedding of `SearchService.boyer_moore_search` (`services.py`
line 81). -/
def boyer_moore_search (text pattern : List Char) : Bool :=
  if pattern.length = 0 then true
  else if text.length < pattern.length then false
  else bmOuter text pattern (text.length + 1) ((pattern.length : Int) - 1)

/-- Python `ord(s[i])` for the Rabin-Karp hashes; all reads are
in-range in the source. -/
def ordAt (s : List Char) (i : Nat) : Int :=
  ((s.getD i ' ').toNat : Int)

/-- Character-by-character verification loop of
`SearchService.rabin_karp_search` (`services.py` lines 140-144). -/
def rkVerify (text pattern : List Char) (i : Nat) : Bool :=
  (List.range pattern.length).all fun j => text.getD (i + j) ' ' = pattern.getD j ' '

/-- Sliding loop of `SearchService.rabin_karp_search` (`services.py`
lines 136-153), iterating `i` from `0` to `n - m`; `remaining` counts
the iterations left (`n - m + 1` at the start).  Lean's `%` on `Int`
agrees with Python's `%` (result in `[0, q)` for positive `q`), so the
`text_hash < 0` adjustment in the source is the same dead code here. -/
def rkLoop (text pattern : List Char) (ph h : Int) (n m : Nat) :
    Nat → Nat → Int → Bool
  | 0, _, _ => false
  | remaining + 1, i, th =>
    if ph = th ∧ rkVerify text pattern i then true
    else
      if i < n - m then
        let th' := (256 * (th - ordAt text i * h) + ordAt text (i + m)) % 101
        let th'' := if th' < 0 then th' + 101 else th'
        rkLoop text pattern ph h n m remaining (i + 1) th''
      else rkLoop text pattern ph h n m remaining (i + 1) th

/-- Embedding of `SearchService.rabin_karp_search` (`services.py`
line 113), with `q = 101`, `d = 256` as in the source. -/
def rabin_karp_search (text pattern : List Char) : Bool :=
  if pattern.length = 0 then true
  else
    let n := text.length
    let m := pattern.length
    if m > n then false
    else
      let h : Int := (256 ^ (m - 1)) % 101
      let ph := (List.range m).foldl (fun a i => (256 * a + ordAt pattern i) % 101) 0
      let th := (List.range m).foldl (fun a i => (256 * a + ordAt text i) % 101) 0
      rkLoop text pattern ph h n m (n - m + 1) 0 th

/-- Node of the `SearchService.AhoCorasickNode` object graph
(`services.py` line 157).  The mutable graph with `fail` back-pointers
is embedded as an arena: nodes are indices into a list, `goto` maps
characters to child indices (in insertion order, like the Python
dictionary), `out` is the set of matched pattern indices (as a
duplicate-free list), and `fail` is `none` exactly where Python stores
`None`. -/
structure ACNode where
  goto : List (Char × Nat)
  out : List Nat
  fail : Option Nat
deriving Repr, Inhabited

/-- Arena read `arena[i]`; the source only follows indices of existing
nodes. -/
def acGet (arena : List ACNode) (i : Nat) : ACNode :=
  arena.getD i default

/-- Dictionary lookup `char in node.goto` / `node.goto[char]`. -/
def acGoto (arena : List ACNode) (i : Nat) (c : Char) : Option Nat :=
  match (acGet arena i).goto.find? (fun p => p.1 = c) with
  | some p => some p.2
  | none => none

/-- In-place node update, functionally. -/
def acSet (arena : List ACNode) (i : Nat) (n : ACNode) : List ACNode :=
  arena.set i n

/-- Python `node.goto[char] = AhoCorasickNode()` combined with
appending the fresh node to the arena. -/
def acAddChild (arena : List ACNode) (i : Nat) (c : Char) : List ACNode × Nat :=
  let fresh : ACNode := { goto := [], out := [], fail := none }
  let idx := arena.length
  let arena' := arena ++ [fresh]
  let nd := acGet arena' i
  (acSet arena' i { nd with goto := nd.goto ++ [(c, idx)] }, idx)

/-- Python `node.out.add(i)` (set insertion). -/
def acAddOut (arena : List ACNode) (i : Nat) (p : Nat) : List ACNode :=
  let nd := acGet arena i
  if nd.out.contains p then arena
  else acSet arena i { nd with out := nd.out ++ [p] }

/-- Python `child.out.update(child.fail.out)` (set union). -/
def acUnionOut (arena : List ACNode) (i : Nat) (extra : List Nat) : List ACNode :=
  let nd := acGet arena i
  acSet arena i { nd with out := nd.out ++ extra.filter (fun x => !nd.out.contains x) }

/-- Python `child.fail = f`. -/
def acSetFail (arena : List ACNode) (i : Nat) (f : Nat) : List ACNode :=
  let nd := acGet arena i
  acSet arena i { nd with fail := some f }

/-- Trie-building walk of `build_aho_corasick` (`services.py` lines
168-174): follow or create `goto` edges along the pattern, then add the
pattern index to the final node's `out` set. -/
def acInsert (arena : List ACNode) (node : Nat) (w : List Char) (pidx : Nat) :
    List ACNode :=
  match w with
  | [] => acAddOut arena node pidx
  | c :: cs =>
    match acGoto arena node c with
    | some child => acInsert arena child cs pidx
    | none =>
      let (arena', child) := acAddChild arena node c
      acInsert arena' child cs pidx

/-- Failure-chain walk `while failure and char not in failure.goto:
failure = failure.fail` (`services.py` lines 188-189).  The chain
strictly shortens the represented depth, so `arena.length` fuel covers
every reachable call. -/
def acFailWalk (arena : List ACNode) (c : Char) : Nat → Option Nat → Option Nat
  | 0, failure => failure
  | fuel + 1, failure =>
    match failure with
    | none => none
    | some f =>
      match acGoto arena f c with
      | some _ => some f
      | none => acFailWalk arena c fuel (acGet arena f).fail

/-- Body of the BFS loop of `build_aho_corasick` (`services.py` lines
182-192) for one dequeued node: each `goto` child (in insertion order)
is enqueued, gets its failure link, and absorbs its failure node's
`out` set. -/
def acProcessNode (arena : List ACNode) (node : Nat) : List ACNode × List Nat :=
  (acGet arena node).goto.foldl
    (fun (st : List ACNode × List Nat) (p : Char × Nat) =>
      let (ar, q) := st
      let (c, child) := p
      let failure := acFailWalk ar c ar.length (acGet ar node).fail
      let childFail :=
        match failure with
        | some f =>
          match acGoto ar f c with
          | some g => g
          | none => 0
        | none => 0
      let ar' := acSetFail ar child childFail
      let ar'' := acUnionOut ar' child (acGet ar' childFail).out
      (ar'', q ++ [child]))
    (arena, [])

/-- BFS queue loop of `build_aho_corasick`; every node is enqueued at
most once, so `arena.length` fuel suffices. -/
def acBfs (arena : List ACNode) : Nat → List Nat → List ACNode
  | 0, _ => arena
  | _, [] => arena
  | fuel + 1, node :: rest =>
    let (arena', newQ) := acProcessNode arena node
    acBfs arena' fuel (rest ++ newQ)

/-- Embedding of `SearchService.build_aho_corasick` (`services.py`
line 163): build the goto trie for all patterns (node 0 is the root),
point the root's children's failure links at the root, then run the
BFS to fill in the remaining failure links and `out` sets. -/
def build_aho_corasick (patterns : List (List Char)) : List ACNode :=
  let root : ACNode := { goto := [], out := [], fail := none }
  let trie := (patterns.enum).foldl
    (fun ar p => acInsert ar 0 p.2 p.1) [root]
  let rootChildren := (acGet trie 0).goto.map (fun p => p.2)
  let trie' := rootChildren.foldl (fun ar ch => acSetFail ar ch 0) trie
  acBfs trie' trie'.length rootChildren

/-- Descent step of the search loop `while node and char not in
node.goto: node = node.fail` (`services.py` lines 206-207). -/
def acDescend (arena : List ACNode) (c : Char) : Nat → Option Nat → Option Nat
  | 0, node => node
  | fuel + 1, node =>
    match node with
    | none => none
    | some i =>
      match acGoto arena i c with
      | some _ => node
      | none => acDescend arena c fuel (acGet arena i).fail

/-- Text scan of `SearchService.aho_corasick_search` (`services.py`
lines 205-216): if the descent dies out, restart from the root and
`continue` (no output check); otherwise take the `goto` edge and report
a match as soon as the node's `out` set is non-empty. -/
def acRun (arena : List ACNode) : List Char → Nat → Bool
  | [], _ => false
  | c :: cs, node =>
    match acDescend arena c (arena.length + 1) (some node) with
    | none => acRun arena cs 0
    | some i =>
      let node' :=
        match acGoto arena i c with
        | some g => g
        | none => 0
      if (acGet arena node').out ≠ [] then true
      else acRun arena cs node'

/-- Embedding of `SearchService.aho_corasick_search` (`services.py`
line 196): empty patterns match immediately, otherwise the automaton is
built for the single pattern and run over the text. -/
def aho_corasick_search (text pattern : List Char) : Bool :=
  if pattern.length = 0 then true
  else acRun (build_aho_corasick [pattern]) text 0

/-- Python `str.lower()` character-wise (the mode names in play are
ASCII, where `Char.toLower` agrees with Python). -/
def pyLower (s : List Char) : List Char :=
  s.map Char.toLower

/-- Embedding of `SearchService.execute_algorithm` (`services.py`
lines 222-239): lower-case the mode name, dispatch along the if-chain,
and raise `ValueError` — modelled as `Except.error` — for unknown
names. -/
def execute_algorithm (algo_name text query : List Char) : Except String Bool :=
  let a := pyLower algo_name
  if a = ("linear search").toList then .ok (linear_search text query)
  else if a = ("hash set search").toList then .ok (hash_set_search text query)
  else if a = ("binary search").toList then .ok (binary_search text query)
  else if a = ("trie search").toList then trie_search text query
  else if a = ("bayer moore").toList ∨ a = ("boyer moore").toList then
    .ok (boyer_moore_search text query)
  else if a = ("rabin karp").toList then .ok (rabin_karp_search text query)
  else if a = ("aho corasick").toList then .ok (aho_corasick_search text query)
  else .error ("Unknown algorithm: " ++ String.mk a)

/-- The eight mode names recognised by the `execute_algorithm`
dispatcher (after lower-casing). -/
def recognizedAlgoNames : List (List Char) :=
  [("linear search").toList, ("hash set search").toList,
   ("binary search").toList, ("trie search").toList,
   ("bayer moore").toList, ("boyer moore").toList,
   ("rabin karp").toList, ("aho corasick").toList]

/-- Error message raised by the payload guard. -/
def payloadTooLargeMsg (m : Int) : String :=
  "Payload too large. Max allowed: " ++ toString m ++ " bytes"

/-- Embedding of `security.protect_buffer` (`security.py` lines
71-108).  Buffers are byte lists; the `TypeError` branch for non-bytes
input is unrepresentable in the typed embedding.  A non-positive
configured maximum is replaced by the default 1024 before the size
check; an oversized buffer raises `BufferError` (modelled as
`Except.error`, which the source re-raises unchanged), and anything
else is returned as is. -/
def protect_buffer (data : List Nat) (max_payload_size : Int) : Except String (List Nat) :=
  let m := if max_payload_size ≤ 0 then 1024 else max_payload_size
  if (data.length : Int) > m then .error (payloadTooLargeMsg m)
  else .ok data

/-- UTF-8 encoding of one Unicode code point (the byte layout Python's
`str.encode("utf-8")` produces for scalar values). -/
def utf8EncodeChar (c : Nat) : List Nat :=
  if c < 0x80 then [c]
  else if c < 0x800 then [0xC0 + c / 0x40, 0x80 + c % 0x40]
  else if c < 0x10000 then
    [0xE0 + c / 0x1000, 0x80 + c / 0x40 % 0x40, 0x80 + c % 0x40]
  else
    [0xF0 + c / 0x40000, 0x80 + c / 0x1000 % 0x40, 0x80 + c / 0x40 % 0x40,
     0x80 + c % 0x40]

/-- UTF-8 encoding of a string given as its code points. -/
def utf8Encode (s : List Nat) : List Nat :=
  (s.map utf8EncodeChar).flatten

/-- Decoding with `errors="replace"`, as CPython's UTF-8 decoder does
it: each maximal subpart of an ill-formed sequence becomes one U+FFFD.
The fuel argument is the byte count; every step consumes at least one
byte.  The valid-continuation ranges depend on the lead byte exactly as
in the WHATWG / Unicode table CPython follows. -/
def utf8DecodeReplace : Nat → List Nat → List Nat
  | 0, _ => []
  | _, [] => []
  | fuel + 1, b :: rest =>
    if b < 0x80 then b :: utf8DecodeReplace fuel rest
    else if b < 0xC2 then 0xFFFD :: utf8DecodeReplace fuel rest
    else if b < 0xE0 then
      match rest with
      | b1 :: rest' =>
        if 0x80 ≤ b1 ∧ b1 < 0xC0 then
          ((b - 0xC0) * 0x40 + (b1 - 0x80)) :: utf8DecodeReplace fuel rest'
        else 0xFFFD :: utf8DecodeReplace fuel rest
      | [] => [0xFFFD]
    else if b < 0xF0 then
      let lo1 := if b = 0xE0 then 0xA0 else 0x80
      let hi1 := if b = 0xED then 0xA0 else 0xC0
      match rest with
      | b1 :: rest' =>
        if lo1 ≤ b1 ∧ b1 < hi1 then
          match rest' with
          | b2 :: rest'' =>
            if 0x80 ≤ b2 ∧ b2 < 0xC0 then
              ((b - 0xE0) * 0x1000 + (b1 - 0x80) * 0x40 + (b2 - 0x80)) ::
                utf8DecodeReplace fuel rest''
            else 0xFFFD :: utf8DecodeReplace fuel rest'
          | [] => [0xFFFD]
        else 0xFFFD :: utf8DecodeReplace fuel rest
      | [] => [0xFFFD]
    else if b < 0xF5 then
      let lo1 := if b = 0xF0 then 0x90 else 0x80
      let hi1 := if b = 0xF4 then 0x90 else 0xC0
      match rest with
      | b1 :: rest' =>
        if lo1 ≤ b1 ∧ b1 < hi1 then
          match rest' with
          | b2 :: rest'' =>
            if 0x80 ≤ b2 ∧ b2 < 0xC0 then
              match rest'' with
              | b3 :: rest''' =>
                if 0x80 ≤ b3 ∧ b3 < 0xC0 then
                  ((b - 0xF0) * 0x40000 + (b1 - 0x80) * 0x1000 +
                      (b2 - 0x80) * 0x40 + (b3 - 0x80)) ::
                    utf8DecodeReplace fuel rest'''
                else 0xFFFD :: utf8DecodeReplace fuel rest''
              | [] => [0xFFFD]
            else 0xFFFD :: utf8DecodeReplace fuel rest'
          | [] => [0xFFFD]
        else 0xFFFD :: utf8DecodeReplace fuel rest
      | [] => [0xFFFD]
    else 0xFFFD :: utf8DecodeReplace fuel rest

/-- Python `bytes.decode("utf-8", errors="replace")`. -/
def pyDecodeReplace (bytes : List Nat) : List Nat :=
  utf8DecodeReplace bytes.length bytes

/-- Embedding of `Log._set_query` (`models.py` lines 33-56) on the
query's code points.  Python repeatedly drops the last byte while it is
a continuation byte (`truncated[-1] & 0xC0 == 0x80`), which equals
reversing, dropping leading continuation bytes, and reversing back.
The `AttributeError`/`UnicodeEncodeError` fallback cannot fire for a
well-typed string of scalar values and is not modelled. -/
def set_query (query : List Nat) : List Nat :=
  let encoded := utf8Encode query
  if encoded.length > 1024 then
    let truncated := encoded.take 1024
    let stripped := (truncated.reverse.dropWhile (fun b => b &&& 0xC0 == 0x80)).reverse
    pyDecodeReplace stripped
  else query

/-- JSON values as `json.dumps` sees them.  Numeric values carry their
decimal rendering, since only the printed literal matters here. -/
inductive PyJson where
  | null : PyJson
  | bool (b : Bool) : PyJson
  | numLit (s : String) : PyJson
  | str (s : String) : PyJson
  | arr (xs : List PyJson) : PyJson
  | obj (fields : List (String × PyJson)) : PyJson

/-- String escaping of `json.dumps` for one character (default
`ensure_ascii` does more for non-ASCII, which never occurs in the
strings at play). -/
def jsonEscapeChar (c : Char) : String :=
  if c = '"' then "\\\""
  else if c = '\\' then "\\\\"
  else if c = '\n' then "\\n"
  else if c = '\t' then "\\t"
  else if c = '\r' then "\\r"
  else if c.toNat < 0x20 then "\\u00" ++ String.mk [Char.ofNat (c.toNat / 16 + 48), Char.ofNat (c.toNat % 16 + 48)]
  else String.mk [c]

/-- String escaping of `json.dumps`. -/
def jsonEscape (s : String) : String :=
  String.join (s.toList.map jsonEscapeChar)

mutual

/-- Embedding of `json.dumps` with its default separators
(`", "` between items, `": "` after keys); dictionary fields appear in
insertion order, as Python preserves it. -/
def jsonDumps : PyJson → String
  | .null => "null"
  | .bool true => "true"
  | .bool false => "false"
  | .numLit s => s
  | .str s => "\"" ++ jsonEscape s ++ "\""
  | .arr xs => "[" ++ jsonDumpsList xs ++ "]"
  | .obj fs => "\x7b" ++ jsonDumpsFields fs ++ "\x7d"

/-- Comma-joined array elements. -/
def jsonDumpsList : List PyJson → String
  | [] => ""
  | [x] => jsonDumps x
  | x :: y :: xs => jsonDumps x ++ ", " ++ jsonDumpsList (y :: xs)

/-- Comma-joined object fields. -/
def jsonDumpsFields : List (String × PyJson) → String
  | [] => ""
  | [(k, v)] => "\"" ++ jsonEscape k ++ "\": " ++ jsonDumps v
  | (k, v) :: f :: fs =>
    "\"" ++ jsonEscape k ++ "\": " ++ jsonDumps v ++ ", " ++ jsonDumpsFields (f :: fs)

end

/-- Reply construction of `main.client_handler` (`main.py` lines
10-33), as a function of the decoded request's `action` and of the
collaborator results: for `create_log` the handler sends
`json.dumps(result)` of the service's result dictionary, for
`read_logs` the JSON-encoded log list, and otherwise a JSON error
object.  (Receiving, `protect_buffer`, `json.loads` and the
exception-to-JSON-error path precede this and do not change the shape
of a successful `create_log` reply.) -/
def client_handler_reply (action : Option String)
    (createLogResult : List (String × PyJson)) (readLogsResult : List PyJson) :
    String :=
  match action with
  | some a =>
    if a = "create_log" then jsonDumps (.obj createLogResult)
    else if a = "read_logs" then jsonDumps (.arr readLogsResult)
    else jsonDumps (.obj [("error", .str "Invalid action")])
  | none => jsonDumps (.obj [("error", .str "Invalid action")])

/-- First line of a reply, the part the wire-format contract speaks
about. -/
def firstLine (s : String) : String :=
  String.mk (s.toList.takeWhile (fun c => c ≠ '\n'))

/-- Modelled from the spec: the storage interface that
`AppService.create_log` is written against — a `load_file` that
stores the corpus in a `data` attribute and reports success, with
failure leaving the previous `data` untouched (spec §4.2; the
repository's `test_app.py` mocks and `test_repositories.py` tests
exactly this interface).  The `StorageRepository` actually shipped in
`repositories.py` does NOT implement it: its `load_file` returns the
raw file content and stores nothing, and the class has no `data`
attribute, so the shipped composition errors on every call — that
composition is modelled separately by `create_log_shipped_data_phase`.
The file system is abstracted as the file's current line list, or
`none` when unreadable. -/
def storage_load_file (file : Option (List String)) (st : Option (List String)) :
    Bool × Option (List String) :=
  match file with
  | some lines => (true, some lines)
  | none => (false, st)

/-- Data-obtaining phase of `AppService.create_log` (`app.py` lines
107-122) against the assumed storage interface `storage_load_file`:
reload when `reread_on_query` is set or nothing is loaded yet,
otherwise reuse the stored data.  Returns (file was read, data
afterwards, load phase succeeded). -/
def loadPhase (reread_on_query : Bool) (st : Option (List String))
    (file : Option (List String)) : Bool × Option (List String) × Bool :=
  if reread_on_query || st.isNone then
    let (okL, st') := storage_load_file file st
    (true, st', okL)
  else (false, st, true)

/-- Embedding of the data phase of `AppService.create_log` (`app.py`
lines 103-124) against the `StorageRepository` actually shipped in
`repositories.py` (lines 47-57) and wired in by `main.py` line 44:
that class defines only `load_file`, which returns the file's raw
content or `None` and stores nothing on the instance, and it has no
`data` attribute.  With `reread_on_query` false, evaluating
`self.storage_repo.data` in the condition raises `AttributeError`
before anything is read; with it true, `load_file` is called (the
file is read), a falsy result — missing/unreadable file, or empty
content — takes the error branch whose message f-string raises
`NameError` on the undefined name `MAX_ROWS`, and a truthy result
reaches the `storage_repo.data is None` check, which raises
`AttributeError`.  The outer handler (`app.py` lines 191-201)
converts every such exception into a `status = "error"` record.
Returns (the file was read, the record's status, the record's error
message — Python's `str(e)` with its quote characters elided).  The
file system is abstracted as the file's current content, or `none`
when missing/unreadable. -/
def create_log_shipped_data_phase (reread_on_query : Bool)
    (file : Option String) : Bool × String × String :=
  if reread_on_query then
    match file with
    | none => (true, "error", "name MAX_ROWS is not defined")
    | some content =>
      if content.length = 0 then
        (true, "error", "name MAX_ROWS is not defined")
      else
        (true, "error", "StorageRepository object has no attribute data")
  else
    (false, "error", "StorageRepository object has no attribute data")

/-- Result dictionary of `AppService.create_log` (`app.py`), with the
keys the source returns on every path. -/
structure LogResult where
  id : Option String
  query : String
  requesting_ip : String
  execution_time : Option Int
  timestamp : Option String
  status : String
  error : Option String
deriving Repr, DecidableEq

/-- Embedding of `AppService.create_log` (`app.py` lines 89-201).  The
collaborator steps are passed in as their outcomes: `prep` for
`storage_repo.prepare` (a `ValueError` is caught by the dedicated
handler), `srch` for `storage_repo.search`, and `persist` for the log
construction and `log_repo.create_log` (whose exceptions reach the
outer handler, as does any other stray exception).  On the failed-load
path the source's error-message f-string references the undefined name
`MAX_ROWS`; the resulting `NameError` is caught by the outer handler,
so that path also returns a `status = "error"` record, only with a
different message.  On the success path the source returns the stored
(truncated) `log.query`, which coincides with `query_string` whenever
the query is at most 1024 UTF-8 bytes; truncation itself is modelled by
`set_query`. -/
def create_log (reread_on_query : Bool) (st : Option (List String))
    (file : Option (List String)) (prep : Except String Unit)
    (srch : Except String (Bool × Int)) (persist : Except String Unit)
    (newId nowIso query_string requesting_ip : String) : LogResult :=
  let (_, st', okL) := loadPhase reread_on_query st file
  if !okL then
    { id := none, query := query_string, requesting_ip := requesting_ip,
      execution_time := none, timestamp := none, status := "error",
      error := some "name MAX_ROWS is not defined" }
  else
    match st' with
    | none =>
      { id := none, query := query_string, requesting_ip := requesting_ip,
        execution_time := none, timestamp := none, status := "error",
        error := some "No data loaded in storage repository" }
    | some _ =>
      match prep with
      | .error e =>
        { id := none, query := query_string, requesting_ip := requesting_ip,
          execution_time := none, timestamp := none, status := "error",
          error := some ("Failed to prepare storage: " ++ e) }
      | .ok _ =>
        match srch with
        | .error e =>
          { id := none, query := query_string, requesting_ip := requesting_ip,
            execution_time := none, timestamp := none, status := "error",
            error := some ("Search operation failed: " ++ e) }
        | .ok (found, exec_time) =>
          match persist with
          | .error e =>
            { id := none, query := query_string, requesting_ip := requesting_ip,
              execution_time := none, timestamp := none, status := "error",
              error := some e }
          | .ok _ =>
            { id := some newId, query := query_string,
              requesting_ip := requesting_ip,
              execution_time := some exec_time, timestamp := some nowIso,
              status := if found then "STRING_EXISTS" else "STRING_NOT_FOUND",
              error := none }

/-- Helper for `specCorpusLines`, accumulating the current line
reversed. -/
def specLinesAux : List Char → List Char → List (List Char)
  | [], acc => [acc.reverse]
  | c :: cs, acc =>
    if c = '\n' then acc.reverse :: specLinesAux cs []
    else specLinesAux cs (c :: acc)

/-- Definition following the spec's words, for comparison with the
code: the spec's "Corpus: an ordered sequence of lines" and its
"byte-for-byte equal to some line" semantics, with lines delimited by
newline characters.  No function in `src` ever splits the corpus into
lines; this definition only states what the spec asks for. -/
def specCorpusLines (text : List Char) : List (List Char) :=
  specLinesAux text []

/-- Well-formedness of a trie node reachable when every inserted word
is free of the marker character: the key `'#'` maps to the boolean
marker and every other key maps to a well-formed sub-dictionary. -/
inductive NodeWF : TrieNode → Prop where
  | nil : NodeWF []
  | consMark (rest : TrieNode) : NodeWF rest → NodeWF (('#', .pyTrue) :: rest)
  | consSub (c : Char) (d rest : TrieNode) :
      c ≠ '#' → NodeWF d → NodeWF rest → NodeWF ((c, .dict d) :: rest)

/-- A create-log result dictionary as `AppService.create_log` returns
it on the success path (`app.py` lines 182-189), with concrete sample
values, used to evaluate the reply the connection handler sends. -/
def c3SuccessResult : List (String × PyJson) :=
  [("id", .str "abc-123"), ("query", .str "hello"),
   ("requesting_ip", .str "127.0.0.1"), ("execution_time", .numLit "0.001"),
   ("timestamp", .str "2024-01-01T00:00:00"), ("status", .str "STRING_EXISTS")]

/-- A query of 1023 ASCII characters (`a`) followed by one 2-byte
character (U+00E9), whose UTF-8 encoding is 1025 bytes. -/
def c4FailingQuery : List Nat :=
  List.replicate 1023 97 ++ [233]

/-- Status values `AppService.create_log` may return. -/
def resultStatusOk (r : LogResult) : Prop :=
  r.status = "STRING_EXISTS" ∨ r.status = "STRING_NOT_FOUND" ∨ r.status = "error"

/-! ### Association-list and trie lemmas -/

theorem alLookup_insert_self (t : TrieNode) (c : Char) (v : PyVal) :
    alLookup (alInsert t c v) c = some v := by
  induction t with
  | nil => simp [alInsert, alLookup]
  | cons p rest ih =>
    obtain ⟨k, w⟩ := p
    by_cases h : k = c
    · subst h; simp [alInsert, alLookup]
    · simp [alInsert, alLookup, h, ih]

theorem alLookup_insert_ne (t : TrieNode) (c c' : Char) (v : PyVal) (h : c' ≠ c) :
    alLookup (alInsert t c v) c' = alLookup t c' := by
  induction t with
  | nil => simp [alInsert, alLookup, Ne.symm h]
  | cons p rest ih =>
    obtain ⟨k, w⟩ := p
    by_cases hk : k = c
    · subst hk; simp [alInsert, alLookup, Ne.symm h]
    · by_cases hkc : k = c'
      · subst hkc; simp [alInsert, alLookup, hk]
      · simp [alInsert, alLookup, hk, hkc, ih]

theorem nodeWF_lookup {t : TrieNode} (h : NodeWF t) {c : Char} {v : PyVal}
    (hl : alLookup t c = some v) :
    (c = '#' ∧ v = PyVal.pyTrue) ∨ ∃ d, v = PyVal.dict d ∧ c ≠ '#' ∧ NodeWF d := by
  induction h with
  | nil => simp [alLookup] at hl
  | consMark rest _ ih =>
    rw [alLookup] at hl
    split at hl
    next hc => cases hl; exact .inl ⟨hc.symm, rfl⟩
    next => exact ih hl
  | consSub c' d rest hne hd _ ihd ihrest =>
    rw [alLookup] at hl
    split at hl
    next hc => cases hl; exact .inr ⟨d, rfl, hc ▸ hne, hd⟩
    next => exact ihrest hl

theorem nodeWF_insert_mark {t : TrieNode} (h : NodeWF t) :
    NodeWF (alInsert t '#' .pyTrue) := by
  induction h with
  | nil => exact .consMark [] .nil
  | consMark rest hrest _ => simpa [alInsert] using NodeWF.consMark rest hrest
  | consSub c d rest hne hd _ _ ihrest =>
    simpa [alInsert, hne] using NodeWF.consSub c d _ hne hd ihrest

theorem nodeWF_insert_sub {t : TrieNode} (h : NodeWF t) {c : Char} {d : TrieNode}
    (hc : c ≠ '#') (hd : NodeWF d) : NodeWF (alInsert t c (.dict d)) := by
  induction h with
  | nil => exact .consSub c d [] hc hd .nil
  | consMark rest hrest ih =>
    have hne : ('#' : Char) ≠ c := Ne.symm hc
    simpa [alInsert, hne] using NodeWF.consMark _ ih
  | consSub c' d' rest hne' hd' hrest ihd ihrest =>
    by_cases hcc : c' = c
    · subst hcc
      simpa [alInsert] using NodeWF.consSub c' d rest hne' hd hrest
    · simpa [alInsert, hcc] using NodeWF.consSub c' d' _ hne' hd' ihrest

theorem insertWord_ok {w : List Char} (hw : '#' ∉ w) :
    ∀ {t : TrieNode}, NodeWF t →
      ∃ t', insertWord t w = .ok t' ∧ NodeWF t' := by
  induction w with
  | nil => exact fun ht => ⟨_, rfl, nodeWF_insert_mark ht⟩
  | cons c cs ih =>
    intro t ht
    have hc : c ≠ '#' := fun h => hw (h ▸ List.mem_cons_self c cs)
    have hcs : '#' ∉ cs := fun h => hw (List.mem_cons_of_mem c h)
    cases hl : alLookup t c with
    | none =>
      obtain ⟨u, hu, hwfu⟩ := ih hcs NodeWF.nil
      exact ⟨_, by rw [insertWord, hl, hu], nodeWF_insert_sub ht hc hwfu⟩
    | some v =>
      rcases nodeWF_lookup ht hl with ⟨hceq, _⟩ | ⟨d, rfl, _, hwd⟩
      · exact absurd hceq hc
      · obtain ⟨d', hd', hwfd'⟩ := ih hcs hwd
        exact ⟨_, by simp [insertWord, hl, hd'], nodeWF_insert_sub ht hc hwfd'⟩

theorem search_trie_nil (q : List Char) : search_trie [] q = .ok false := by
  cases q <;> rfl

theorem search_insert_empty {w : List Char} (hw : '#' ∉ w) :
    ∀ {u : TrieNode}, insertWord [] w = .ok u →
      ∀ {q : List Char}, '#' ∉ q → search_trie u q = .ok (decide (q = w)) := by
  induction w with
  | nil =>
    intro u hu q hq
    have hu' : u = [('#', PyVal.pyTrue)] := by
      rw [insertWord] at hu; cases hu; rfl
    subst hu'
    cases q with
    | nil => simp [search_trie, alLookup]
    | cons c cs =>
      have hc : ('#' : Char) ≠ c :=
        fun h => hq (h ▸ List.mem_cons_self c cs)
      simp [search_trie, alLookup, hc]
  | cons a as ih =>
    intro u hu q hq
    have ha : a ≠ '#' := by
      intro h
      rw [insertWord, alLookup] at hu
      exact hw (h ▸ List.mem_cons_self a as)
    have has : '#' ∉ as := fun h => hw (List.mem_cons_of_mem a h)
    cases hu' : insertWord [] as with
    | error e => rw [insertWord, alLookup, hu'] at hu; cases hu
    | ok u' =>
      have hueq : u = [(a, PyVal.dict u')] := by
        rw [insertWord, alLookup, hu'] at hu
        cases hu; rfl
      subst hueq
      cases q with
      | nil => simp [search_trie, alLookup, ha]
      | cons c cs =>
        have hcs : '#' ∉ cs := fun h => hq (List.mem_cons_of_mem c h)
        by_cases hca : a = c
        · subst hca
          have := ih has hu' hcs
          simp [search_trie, alLookup, this]
        · simp [search_trie, alLookup, hca]
          intro h
          exact absurd h.symm hca

theorem search_trie_insert {w : List Char} (hw : '#' ∉ w) :
    ∀ {t t' : TrieNode}, NodeWF t → insertWord t w = .ok t' →
      ∀ {q : List Char}, '#' ∉ q → ∀ {b : Bool},
        search_trie t q = .ok b →
        search_trie t' q = .ok (decide (q = w) || b) := by
  induction w with
  | nil =>
    intro t t' ht hins q hq b hs
    have ht' : t' = alInsert t '#' .pyTrue := by
      rw [insertWord] at hins; cases hins; rfl
    subst ht'
    cases q with
    | nil =>
      simp [search_trie, alLookup_insert_self]
    | cons c cs =>
      have hc : c ≠ '#' := fun h => hq (h ▸ List.mem_cons_self c cs)
      have heq := alLookup_insert_ne t '#' c .pyTrue hc
      simp only [search_trie, heq] at hs ⊢
      rw [hs]
      simp
  | cons a as ih =>
    intro t t' ht hins q hq b hs
    have ha : a ≠ '#' := fun h => hw (h ▸ List.mem_cons_self a as)
    have has : '#' ∉ as := fun h => hw (List.mem_cons_of_mem a h)
    cases hl : alLookup t a with
    | none =>
      cases hu : insertWord [] as with
      | error e => simp [insertWord, hl, hu] at hins
      | ok u =>
        have ht' : t' = alInsert t a (.dict u) := by
          simp [insertWord, hl, hu] at hins; exact hins.symm
        subst ht'
        cases q with
        | nil =>
          have heq := alLookup_insert_ne t a '#' (.dict u) (Ne.symm ha)
          simp only [search_trie, heq] at hs ⊢
          rw [hs]
          simp
        | cons c cs =>
          have hcs : '#' ∉ cs := fun h => hq (List.mem_cons_of_mem c h)
          by_cases hca : c = a
          · subst hca
            have hb : b = false := by
              simp only [search_trie, hl] at hs
              cases hs; rfl
            subst hb
            have h5 := search_insert_empty has hu hcs
            simp only [search_trie, alLookup_insert_self, h5]
            simp [List.cons.injEq]
          · have heq := alLookup_insert_ne t a c (.dict u) hca
            simp only [search_trie, heq] at hs ⊢
            rw [hs]
            simp [List.cons.injEq, hca]
    | some v =>
      rcases nodeWF_lookup ht hl with ⟨hceq, _⟩ | ⟨d, rfl, _, hwd⟩
      · exact absurd hceq ha
      · cases hd' : insertWord d as with
        | error e => simp [insertWord, hl, hd'] at hins
        | ok d' =>
          have ht' : t' = alInsert t a (.dict d') := by
            simp [insertWord, hl, hd'] at hins; exact hins.symm
          subst ht'
          cases q with
          | nil =>
            have heq := alLookup_insert_ne t a '#' (.dict d') (Ne.symm ha)
            simp only [search_trie, heq] at hs ⊢
            rw [hs]
            simp
          | cons c cs =>
            have hcs : '#' ∉ cs := fun h => hq (List.mem_cons_of_mem c h)
            by_cases hca : c = a
            · subst hca
              simp only [search_trie, hl] at hs
              have h6 := ih has hwd hd' hcs hs
              simp only [search_trie, alLookup_insert_self, h6]
              simp [List.cons.injEq]
            · have heq := alLookup_insert_ne t a c (.dict d') hca
              simp only [search_trie, heq] at hs ⊢
              rw [hs]
              simp [List.cons.injEq, hca]

theorem buildTrieAux_spec :
    ∀ {ws : List (List Char)}, (∀ w ∈ ws, '#' ∉ w) →
      ∀ {t : TrieNode}, NodeWF t →
        ∃ t', buildTrieAux t ws = .ok t' ∧ NodeWF t' ∧
          ∀ {q : List Char}, '#' ∉ q → ∀ {b : Bool},
            search_trie t q = .ok b →
            search_trie t' q = .ok (decide (q ∈ ws) || b) := by
  intro ws
  induction ws with
  | nil =>
    intro _ t ht
    exact ⟨t, rfl, ht, fun _ _ hs => by simpa using hs⟩
  | cons w ws ih =>
    intro hws t ht
    have hw : '#' ∉ w := hws w (List.mem_cons_self w ws)
    obtain ⟨t₁, h₁, hwf₁⟩ := insertWord_ok hw ht
    obtain ⟨t', h', hwf', hsrch⟩ :=
      ih (fun x hx => hws x (List.mem_cons_of_mem w hx)) hwf₁
    refine ⟨t', ?_, hwf', ?_⟩
    · simp only [buildTrieAux, h₁]
      exact h'
    · intro q hq b hs
      have h2 := search_trie_insert hw ht h₁ hq hs
      have h3 := hsrch hq h2
      rw [h3]
      congr 1
      simp [List.mem_cons, Bool.or_comm, Bool.or_left_comm, Bool.or_assoc]

theorem build_trie_spec {ws : List (List Char)} (hws : ∀ w ∈ ws, '#' ∉ w) :
    ∃ t, build_trie ws = .ok t ∧ NodeWF t ∧
      ∀ {q : List Char}, '#' ∉ q → search_trie t q = .ok (decide (q ∈ ws)) := by
  obtain ⟨t, h, hwf, hs⟩ := buildTrieAux_spec hws NodeWF.nil
  exact ⟨t, h, hwf, fun hq => by simpa using hs hq (search_trie_nil _)⟩

theorem pySplitAux_mem_subset :
    ∀ (s acc w : List Char), w ∈ pySplitAux s acc →
      ∀ c ∈ w, c ∈ s ∨ c ∈ acc := by
  intro s
  induction s with
  | nil =>
    intro acc w hw c hc
    rw [pySplitAux] at hw
    split at hw
    · simp at hw
    · simp at hw
      subst hw
      exact .inr (List.mem_reverse.mp hc)
  | cons x xs ih =>
    intro acc w hw c hc
    rw [pySplitAux] at hw
    split at hw
    · split at hw
      · rcases ih [] w hw c hc with h | h
        · exact .inl (List.mem_cons_of_mem x h)
        · simp at h
      · rcases List.mem_cons.mp hw with rfl | hw'
        · exact .inr (List.mem_reverse.mp hc)
        · rcases ih [] w hw' c hc with h | h
          · exact .inl (List.mem_cons_of_mem x h)
          · simp at h
    · rcases ih (x :: acc) w hw c hc with h | h
      · exact .inl (List.mem_cons_of_mem x h)
      · rcases List.mem_cons.mp h with rfl | h'
        · exact .inl (List.mem_cons_self c xs)
        · exact .inr h'

theorem pySplit_mem_subset {text w : List Char} (h : w ∈ pySplit text) :
    ∀ c ∈ w, c ∈ text := by
  intro c hc
  rcases pySplitAux_mem_subset text [] w h c hc with h' | h'
  · exact h'
  · simp at h'

theorem trie_search_spec {text query : List Char}
    (htext : '#' ∉ text) (hq : '#' ∉ query) :
    trie_search text query = .ok (decide (query ∈ pySplit text)) := by
  have hws : ∀ w ∈ pySplit text, '#' ∉ w :=
    fun w hw hmem => htext (pySplit_mem_subset hw '#' hmem)
  obtain ⟨t, h, _, hs⟩ := build_trie_spec hws
  simp only [trie_search, h]
  exact hs hq

theorem strContains_iff (text query : List Char) :
    strContains text query = true ↔ query <:+: text := by
  induction text with
  | nil =>
    simp [strContains, List.isPrefixOf_iff_prefix]
  | cons a rest ih =>
    simp [strContains, List.isPrefixOf_iff_prefix, ih, List.infix_cons_iff]

theorem execute_linear (text query : List Char) :
    execute_algorithm (("linear search").toList) text query =
      .ok (linear_search text query) := rfl

theorem execute_hash_set (text query : List Char) :
    execute_algorithm (("hash set search").toList) text query =
      .ok (hash_set_search text query) := rfl

/-! ### Claim theorems -/

/-- C1, counterexample: the claim "`execute_algorithm` returns true iff
the target is byte-for-byte equal to some line of the corpus; all modes
agree" is false for the code.  For corpus `"ab"` (whose only line is
`"ab"`) and target `"a"`, the linear mode returns true although `"a"`
is not a line, while the hash-set mode returns false — so the modes
also disagree with each other. -/
theorem C1_counterexample :
    execute_algorithm (("linear search").toList) (("ab").toList) (("a").toList) = .ok true
    ∧ execute_algorithm (("hash set search").toList) (("ab").toList) (("a").toList) = .ok false
    ∧ specCorpusLines (("ab").toList) = [("ab").toList]
    ∧ ("a").toList ∉ specCorpusLines (("ab").toList) :=
  ⟨rfl, rfl, rfl, by decide⟩

/-- C1, amended: `execute_algorithm` never matches whole lines.  The
linear mode returns true iff the target is a contiguous substring of
the corpus text, and the hash-set mode returns true iff the target is
byte-for-byte equal to some whitespace-delimited word, so the modes
need not agree on identical (corpus, target) pairs. -/
theorem C1_amended_search_semantics (text query : List Char) :
    (execute_algorithm (("linear search").toList) text query = .ok true
      ↔ query <:+: text)
    ∧ (execute_algorithm (("hash set search").toList) text query = .ok true
      ↔ query ∈ pySplit text) := by
  constructor
  · rw [execute_linear]
    simp [linear_search, strContains_iff]
  · rw [execute_hash_set]
    simp [hash_set_search]

/-- C2, counterexample: dispatching an unrecognized mode name does not
fall back to the linear strategy — it raises `ValueError`.  For mode
`"magic"`, corpus `"xy"` and target `"x"` the linear strategy would
return true, but `execute_algorithm` raises instead. -/
theorem C2_counterexample :
    execute_algorithm (("magic").toList) (("xy").toList) (("x").toList) =
      .error "Unknown algorithm: magic"
    ∧ linear_search (("xy").toList) (("x").toList) = true :=
  ⟨rfl, rfl⟩

/-- C2, amended: for every mode name that is not one of the recognized
names (after lower-casing), `execute_algorithm` raises a `ValueError`
naming the unknown algorithm; the fallback to linear described by the
spec does not exist in the code. -/
theorem C2_amended_unknown_mode_raises (algo_name text query : List Char)
    (h : pyLower algo_name ∉ recognizedAlgoNames) :
    execute_algorithm algo_name text query =
      .error ("Unknown algorithm: " ++ String.mk (pyLower algo_name)) := by
  have hne : ∀ x, x ∈ recognizedAlgoNames → pyLower algo_name ≠ x :=
    fun x hx he => h (he ▸ hx)
  have h1 : pyLower algo_name ≠ ("linear search").toList :=
    hne _ (by simp [recognizedAlgoNames])
  have h2 : pyLower algo_name ≠ ("hash set search").toList :=
    hne _ (by simp [recognizedAlgoNames])
  have h3 : pyLower algo_name ≠ ("binary search").toList :=
    hne _ (by simp [recognizedAlgoNames])
  have h4 : pyLower algo_name ≠ ("trie search").toList :=
    hne _ (by simp [recognizedAlgoNames])
  have h5 : pyLower algo_name ≠ ("bayer moore").toList :=
    hne _ (by simp [recognizedAlgoNames])
  have h6 : pyLower algo_name ≠ ("boyer moore").toList :=
    hne _ (by simp [recognizedAlgoNames])
  have h7 : pyLower algo_name ≠ ("rabin karp").toList :=
    hne _ (by simp [recognizedAlgoNames])
  have h8 : pyLower algo_name ≠ ("aho corasick").toList :=
    hne _ (by simp [recognizedAlgoNames])
  have h56 : ¬(pyLower algo_name = ("bayer moore").toList
      ∨ pyLower algo_name = ("boyer moore").toList) :=
    fun hor => hor.elim h5 h6
  simp only [execute_algorithm]
  rw [if_neg h1, if_neg h2, if_neg h3, if_neg h4, if_neg h56, if_neg h7, if_neg h8]

/-- C2, witness: the amended claim at the concrete unknown mode
`"magic"`. -/
theorem C2_amended_witness :
    execute_algorithm (("magic").toList) (("ab").toList) (("a").toList) =
      .error ("Unknown algorithm: " ++ String.mk (pyLower (("magic").toList))) :=
  C2_amended_unknown_mode_raises _ _ _ (by decide)

/-- C8, counterexample: with corpus `"a#"` the only indexed word is
`"a#"`, and `"a"` is a proper prefix of it that is not itself an
indexed word — yet the trie search returns true, because the literal
`'#'` inside the word collides with the trie's end-of-word marker
key. -/
theorem C8_counterexample :
    pySplit (("a#").toList) = [("a#").toList]
    ∧ ("a").toList <+: ("a#").toList
    ∧ ("a").toList ≠ ("a#").toList
    ∧ ("a").toList ∉ pySplit (("a#").toList)
    ∧ trie_search (("a#").toList) (("a").toList) = .ok true :=
  ⟨rfl, by decide, by decide, by decide, rfl⟩

/-- C8, amended: for every corpus free of the marker character `'#'`
and every query that is a proper prefix of some indexed word but not
itself an indexed word, the trie search returns false: a path that
exists without the end-of-word marker is not a match. -/
theorem C8_amended_trie_proper_prefix_not_found (text query : List Char)
    (htext : '#' ∉ text)
    (hpre : ∃ w ∈ pySplit text, query <+: w ∧ query ≠ w)
    (hnot : query ∉ pySplit text) :
    trie_search text query = .ok false := by
  have hq : '#' ∉ query := by
    obtain ⟨w, hw, hqw, _⟩ := hpre
    intro hmem
    exact htext (pySplit_mem_subset hw '#' (hqw.subset hmem))
  rw [trie_search_spec htext hq]
  simp [hnot]

/-- C8, witness: the amended claim at corpus `"apple"` and query
`"app"`. -/
theorem C8_amended_witness :
    trie_search (("apple").toList) (("app").toList) = .ok false :=
  C8_amended_trie_proper_prefix_not_found _ _ (by decide)
    ⟨("apple").toList, by decide, by decide, by decide⟩ (by decide)

/-- C10, counterexample: the claim "`trie_search` returns the same
boolean as `hash_set_search`" is false for the code.  For text `"b#"`
and query `"b"`, the trie search answers true (marker collision) while
the hash-set search answers false. -/
theorem C10_counterexample :
    trie_search (("b#").toList) (("b").toList) = .ok true
    ∧ hash_set_search (("b#").toList) (("b").toList) = false :=
  ⟨rfl, rfl⟩

/-- C10, amended: whenever the marker character `'#'` occurs in
neither the text nor the query, `trie_search` agrees with
`hash_set_search`: membership in the trie built from the
whitespace-split words coincides with membership in the word set. -/
theorem C10_amended_trie_hash_agree (text query : List Char)
    (htext : '#' ∉ text) (hq : '#' ∉ query) :
    trie_search text query = .ok (hash_set_search text query) := by
  rw [trie_search_spec htext hq]
  rfl

/-- C10, witness: the amended claim at text `"x y"` and query
`"y"`. -/
theorem C10_amended_witness :
    trie_search (("x y").toList) (("y").toList) =
      .ok (hash_set_search (("x y").toList) (("y").toList)) :=
  C10_amended_trie_hash_agree _ _ (by decide) (by decide)

theorem protect_buffer_pos (data : List Nat) {m : Int} (hm : 0 < m) :
    protect_buffer data m =
      if (data.length : Int) > m then .error (payloadTooLargeMsg m)
      else .ok data := by
  simp only [protect_buffer]
  rw [if_neg (not_le.mpr hm)]

set_option maxRecDepth 1000000 in
/-- C3: evaluation of the shipped `client_handler` at a successful
`create_log` request.  The reply is the single-line JSON encoding of
the result dictionary — its first line opens the JSON object and is
not `"STRING EXISTS"`, `"STRING NOT_FOUND"`, or `"ERROR: <message>"`,
contradicting the wire-format contract (which the repository's own
`test_main.py` expects via the `format_tcp_response` function that is
absent from `src/main.py`). -/
theorem C3_reply_is_json_not_plain_text :
    client_handler_reply (some "create_log") c3SuccessResult [] =
      "\x7b\"id\": \"abc-123\", \"query\": \"hello\", \"requesting_ip\": \"127.0.0.1\", \"execution_time\": 0.001, \"timestamp\": \"2024-01-01T00:00:00\", \"status\": \"STRING_EXISTS\"\x7d"
    ∧ firstLine (client_handler_reply (some "create_log") c3SuccessResult []) ≠
        "STRING EXISTS"
    ∧ firstLine (client_handler_reply (some "create_log") c3SuccessResult []) ≠
        "STRING NOT_FOUND"
    ∧ (firstLine (client_handler_reply (some "create_log") c3SuccessResult [])).take 7 ≠
        "ERROR: " :=
  ⟨rfl, by decide, by decide, by decide⟩

set_option maxRecDepth 1000000 in
/-- C4: evaluation of `Log._set_query` at the failing input
`c4FailingQuery` (1023 ASCII bytes plus one 2-byte character, 1025
bytes encoded).  Truncation to 1024 bytes leaves the dangling lead
byte of the split character; the strip loop only removes continuation
bytes, so `errors="replace"` decoding turns the lead byte into the
3-byte U+FFFD and the stored query re-encodes to 1026 bytes — more
than the documented 1024-byte bound. -/
theorem C4_set_query_exceeds_limit :
    (utf8Encode c4FailingQuery).length = 1025
    ∧ (utf8Encode (set_query c4FailingQuery)).length = 1026
    ∧ 1024 < (utf8Encode (set_query c4FailingQuery)).length := by
  refine ⟨by decide, by decide, by decide⟩

/-- C5: for every positive configured maximum, `protect_buffer`
accepts a buffer of exactly `max_payload_size` bytes and returns it
unchanged, and rejects a buffer of `max_payload_size + 1` bytes with
the distinct payload-too-large error, never truncating it. -/
theorem C5_payload_boundary (a b : List Nat) (m : Int) (hm : 0 < m) :
    ((a.length : Int) = m → protect_buffer a m = .ok a)
    ∧ ((b.length : Int) = m + 1 →
        protect_buffer b m = .error (payloadTooLargeMsg m)) := by
  constructor
  · intro ha
    rw [protect_buffer_pos a hm, if_neg (by omega)]
  · intro hb
    rw [protect_buffer_pos b hm, if_pos (by omega)]

/-- C5, witness: the boundary behaviour at `max_payload_size = 3`. -/
theorem C5_payload_boundary_witness :
    protect_buffer [0, 0, 0] 3 = .ok [0, 0, 0]
    ∧ protect_buffer [0, 0, 0, 0] 3 = .error (payloadTooLargeMsg 3) := by
  have h := C5_payload_boundary [0, 0, 0] [0, 0, 0, 0] 3 (by decide)
  exact ⟨h.1 (by decide), h.2 (by decide)⟩

/-- C9: a non-positive configured maximum does not disable the size
check: `protect_buffer` behaves exactly as with the default limit
1024, accepting buffers up to 1024 bytes and rejecting larger ones
with the payload-too-large error naming the default. -/
theorem C9_nonpositive_max_defaults (data : List Nat) (m : Int) (hm : m ≤ 0) :
    protect_buffer data m = protect_buffer data 1024
    ∧ (data.length ≤ 1024 → protect_buffer data m = .ok data)
    ∧ (1024 < data.length →
        protect_buffer data m = .error (payloadTooLargeMsg 1024)) := by
  have hmain : protect_buffer data m = protect_buffer data 1024 := by
    simp only [protect_buffer]
    rw [if_pos hm, if_neg (show ¬((1024 : Int) ≤ 0) by norm_num)]
  refine ⟨hmain, ?_, ?_⟩
  · intro hlen
    rw [hmain, protect_buffer_pos data (show (0 : Int) < 1024 by norm_num),
      if_neg (by omega)]
  · intro hlen
    rw [hmain, protect_buffer_pos data (show (0 : Int) < 1024 by norm_num),
      if_pos (by omega)]

/-- C9, witness: the default limit at the concrete maxima `-2` and
`0`. -/
theorem C9_nonpositive_max_defaults_witness :
    protect_buffer [7] (-2) = protect_buffer [7] 1024
    ∧ protect_buffer (List.replicate 1025 0) 0 =
        .error (payloadTooLargeMsg 1024) := by
  have h1 := C9_nonpositive_max_defaults [7] (-2) (by decide)
  have h2 := C9_nonpositive_max_defaults (List.replicate 1025 0) 0 (by decide)
  exact ⟨h1.1, h2.2.2 (by rw [List.length_replicate]; norm_num)⟩

/-- C6: evaluation of the shipped code — the claimed reread/caching
behaviour never occurs.  `AppService.create_log`, as wired by
`main.py` to the `StorageRepository` of `repositories.py` (no `data`
attribute), errors on every call: with reread-on-query false the
corpus file is never read at all and every call returns a
status-`"error"` record whatever the file contains (the
`storage_repo.data` read raises `AttributeError`), and with
reread-on-query true the file is re-read on every call yet an edit is
still never reflected in any result — every call again returns a
status-`"error"` record.  The caching and edit-reflection the claim
(and the repository's own `test_repositories.py`, which asserts that
`load_file` stores the lines in `data` and returns a success flag)
describe belong to a data-storing storage class that is not the one
shipped. -/
theorem C6_shipped_storage_always_errors :
    (∀ file : Option String,
      create_log_shipped_data_phase false file =
        (false, "error", "StorageRepository object has no attribute data"))
    ∧ (∀ file : Option String,
      (create_log_shipped_data_phase true file).1 = true
      ∧ (create_log_shipped_data_phase true file).2.1 = "error") := by
  constructor
  · intro file
    rfl
  · intro file
    cases file with
    | none => exact ⟨rfl, rfl⟩
    | some content =>
      by_cases h : content.length = 0 <;>
        simp [create_log_shipped_data_phase, h]

/-- C7: `create_log` is a total function into result records: every
outcome of the collaborator steps produces a record whose status is
one of `STRING_EXISTS`, `STRING_NOT_FOUND` or `error`, and whenever
the data cannot be obtained or any of the prepare, search or
log-persisting steps fails, the status is `error` — no exception
escapes. -/
theorem C7_create_log_total_error_handling
    (reread : Bool) (st file : Option (List String))
    (prep : Except String Unit) (srch : Except String (Bool × Int))
    (persist : Except String Unit) (newId nowIso q ip : String) :
    resultStatusOk (create_log reread st file prep srch persist newId nowIso q ip)
    ∧ (prep.isOk = false ∨ srch.isOk = false ∨ persist.isOk = false
        ∨ (loadPhase reread st file).2.2 = false →
      (create_log reread st file prep srch persist newId nowIso q ip).status =
        "error") := by
  rcases hlp : loadPhase reread st file with ⟨rd, st', okL⟩
  cases okL <;> rcases st' with _ | d <;>
    rcases prep with pe | pu <;>
    rcases srch with se | ⟨found, tm⟩ <;>
    rcases persist with ve | vu <;>
    try cases found
  all_goals simp [create_log, resultStatusOk, hlp, Except.isOk, Except.toBool]

/-- C7, witness: a failing prepare step at concrete inputs yields an
error record. -/
theorem C7_create_log_witness :
    resultStatusOk
      (create_log false (some ["a"]) none (.error "boom") (.ok (true, 1))
        (.ok ()) "i" "t" "q" "ip")
    ∧ (create_log false (some ["a"]) none (.error "boom") (.ok (true, 1))
        (.ok ()) "i" "t" "q" "ip").status = "error" := by
  have h := C7_create_log_total_error_handling false (some ["a"]) none
    (.error "boom") (.ok (true, 1)) (.ok ()) "i" "t" "q" "ip"
  exact ⟨h.1, h.2 (Or.inl rfl)⟩

end Parser
